import Mathlib

/-!
Verification of the flashcards application (`streamlit_app.py`).

The development shallowly embeds the scheduling, persistence and generation
code of the application. Dates are modelled as integers (day numbers),
Python ints as `Int`, and the floating-point `ease_factor` as an exact
rational `Rat`. Mutation of a `Card` is modelled by returning an updated
record. File input/output is modelled by an explicit `FileState` describing
what reading the category file yields (missing file, unreadable/malformed
content, or a parsed list of records). Python string primitives
(`split`, `strip`, `in`, `len`) are embedded as structural functions over
the character list of a `String`.
-/

namespace Flashcards

/-! ### Python string primitives -/

/-- Python `sep in s` for a single-character separator. -/
def pyContains (s : String) (sep : Char) : Bool :=
  s.data.contains sep

/-- Python `s.split(sep)` on a single-character separator, on char lists:
splits at every occurrence of `sep`, yielding one more part than there are
occurrences (so the result is never empty). -/
def splitChar (sep : Char) : List Char → List (List Char)
  | [] => [[]]
  | c :: cs =>
    if c = sep then [] :: splitChar sep cs
    else
      match splitChar sep cs with
      | [] => [[c]]
      | p :: ps => (c :: p) :: ps

/-- Python `s.split(sep)` for a single-character separator. -/
def pySplit (s : String) (sep : Char) : List String :=
  (splitChar sep s.data).map String.mk

/-- Python `s.split(sep, 1)`: the part before the first occurrence of `sep`
and everything after it (the whole string and `""` when `sep` is absent). -/
def splitFirst (sep : Char) : List Char → List Char × List Char
  | [] => ([], [])
  | c :: cs =>
    if c = sep then ([], cs)
    else
      let r := splitFirst sep cs
      (c :: r.1, r.2)

/-- Python `s.strip()`: remove leading and trailing whitespace. -/
def pyStrip (s : String) : String :=
  String.mk (((s.data.dropWhile Char.isWhitespace).reverse.dropWhile
    Char.isWhitespace).reverse)

/-! ### Data model -/

/-- One history record, as appended by `sm2_update`:
`{"date": today, "q": q, "user_grade": quality}`. -/
structure HistRec where
  date : Int
  q : Int
  user_grade : Int
deriving DecidableEq, Repr

/-- The `Card` model: scheduling state plus content, mirroring the Python
class `Card`. Dates are day numbers, `ease_factor` an exact rational. -/
structure Card where
  id : String
  question : String
  answer : String
  created_at : Int
  interval : Int
  repetitions : Int
  ease_factor : Rat
  due_date : Int
  history : List HistRec
deriving DecidableEq, Repr

/-- A fresh card as built by the `Card` constructor defaults:
`interval=0`, `repetitions=0`, `ease_factor=2.5`, empty history. -/
def freshCard (id question answer : String) (today : Int) : Card :=
  { id := id, question := question, answer := answer, created_at := today,
    interval := 0, repetitions := 0, ease_factor := 5/2,
    due_date := today, history := [] }

/-! ### Scheduler (`sm2_update`) -/

/-- The grade map `q_map.get(quality, 3)` over the table mapping 1 to 2,
2 to 4 and 3 to 5. -/
def q_map (quality : Int) : Int :=
  if quality = 1 then 2 else if quality = 2 then 4 else if quality = 3 then 5 else 3

/-- Embedding of `sm2_update(card, quality)`. The Python function mutates
`card` in place; here the updated card is returned. `today` is passed
explicitly instead of reading the clock. The interval update reads the
pre-update `repetitions`, `interval` and `ease_factor`, exactly as the
in-place code does (the ease factor is only written after the interval). -/
def sm2_update (card : Card) (quality : Int) (today : Int) : Card :=
  let q := q_map quality
  let newReps : Int := if q < 3 then 0 else card.repetitions + 1
  let newInterval : Int :=
    if q < 3 then 1
    else if card.repetitions + 1 = 1 then 1
    else if card.repetitions + 1 = 2 then 6
    else Int.ceil ((card.interval : Rat) * card.ease_factor)
  let ef0 : Rat :=
    card.ease_factor + (1/10 - ((5 - q : Int) : Rat) * (8/100 + ((5 - q : Int) : Rat) * (2/100)))
  let newEf : Rat := if ef0 < 13/10 then 13/10 else ef0
  { card with
      repetitions := newReps
      interval := newInterval
      ease_factor := newEf
      due_date := today + newInterval
      history := card.history ++ [⟨today, q, quality⟩] }

/-- A sequence of grading events `(grade, day)`, applied in order. -/
def applyGrades (card : Card) (evs : List (Int × Int)) : Card :=
  evs.foldl (fun c gd => sm2_update c gd.1 gd.2) card

/-! ### Store (`load_cards` / `save_cards`) -/

/-- One persisted JSON record: each field may be absent (`none`), in which
case `load_cards` applies its default. -/
structure RawCard where
  id : Option String
  question : Option String
  answer : Option String
  created_at : Option Int
  interval : Option Int
  repetitions : Option Int
  ease_factor : Option Rat
  due_date : Option Int
  history : Option (List HistRec)
deriving DecidableEq, Repr

/-- The record with every field absent. -/
def RawCard.empty : RawCard :=
  ⟨none, none, none, none, none, none, none, none, none⟩

/-- Serialisation `Card.to_dict`: every field is written. -/
def Card.to_dict (c : Card) : RawCard :=
  ⟨some c.id, some c.question, some c.answer, some c.created_at, some c.interval,
   some c.repetitions, some c.ease_factor, some c.due_date, some c.history⟩

/-- Reconstruction of one `Card` from a record inside `load_cards`, with the
defaulting of `c.get(...)`: fresh id, empty question/answer, today for the
dates, `interval=0`, `repetitions=0`, `ease_factor=2.5`, empty history. -/
def parseCard (freshId : String) (today : Int) (r : RawCard) : Card :=
  { id := r.id.getD freshId
    question := r.question.getD ""
    answer := r.answer.getD ""
    created_at := r.created_at.getD today
    interval := r.interval.getD 0
    repetitions := r.repetitions.getD 0
    ease_factor := r.ease_factor.getD (5/2)
    due_date := r.due_date.getD today
    history := r.history.getD [] }

/-- The loop over the parsed array: each record gets its own fresh id
(`str(uuid.uuid4())` is modelled by the supply `uuid`, indexed by position). -/
def parseAll (uuid : Nat → String) (today : Int) : Nat → List RawCard → List Card
  | _, [] => []
  | i, r :: rs => parseCard (uuid i) today r :: parseAll uuid today (i + 1) rs

/-- What reading a category's file yields: no file at all, an unreadable or
malformed file (`open`/`json.load` raises), or a parsed list of records. -/
inductive FileState where
  | missing : FileState
  | corrupt : FileState
  | good : List RawCard → FileState
deriving DecidableEq

/-- Embedding of `load_cards(category)`. Returns the card list together with
a flag that is `true` exactly when the `except` branch reported an error
(`st.error`): a missing file returns `[]` silently, a corrupt file reports
and returns `[]`, a parsed file is converted record by record. -/
def load_cards (fs : FileState) (uuid : Nat → String) (today : Int) :
    List Card × Bool :=
  match fs with
  | .missing => ([], false)
  | .corrupt => ([], true)
  | .good data => (parseAll uuid today 0 data, false)

/-- Embedding of `save_cards(cards, category)`: the JSON array written to the
category file is the list of `to_dict` serialisations. -/
def save_cards (cards : List Card) : List RawCard :=
  cards.map Card.to_dict

/-! ### Line-based Q/A generation (`generate_qa_from_text_by_lines`) -/

/-- A generated question/answer pair. -/
structure QA where
  question : String
  answer : String
deriving DecidableEq, Repr

/-- The seed test of the generator:
`":" in line and len(line.split(":")[0]) < 100`. -/
def is_qa_seed (line : String) : Bool :=
  pyContains line ':' && decide (((pySplit line ':').headD "").length < 100)

/-- The body of the `while` lookahead loop, with the remaining iteration
count `stop - j` made explicit so the recursion is structural: while
iterations remain, a line that is a new Q/A seed stops the loop; otherwise
the line is appended to the answer when shorter than 200 characters and
skipped when not, and the loop moves to the next line. -/
def contLoopFuel (lines : List String) : Nat → Nat → String → String
  | 0, _, answer => answer
  | fuel + 1, j, answer =>
    if is_qa_seed (lines.getD j "") then answer
    else contLoopFuel lines fuel (j + 1)
      (if (lines.getD j "").length < 200 then answer ++ " " ++ lines.getD j ""
       else answer)

/-- The `while` lookahead loop: starting at index `j`, with
`stop = min(i + 4, len(lines))`, it runs while `j < stop`, i.e. for at most
`stop - j` iterations. -/
def contLoop (lines : List String) (stop : Nat) (j : Nat) (answer : String) :
    String :=
  contLoopFuel lines (stop - j) j answer

/-- The `for i, line in enumerate(lines)` loop of
`generate_qa_from_text_by_lines`, on the already split and filtered lines. -/
def qaFromLines (lines : List String) : List QA :=
  (List.range lines.length).filterMap (fun i =>
    let line := lines.getD i ""
    if is_qa_seed line then
      let lr := splitFirst ':' line.data
      some ⟨pyStrip (String.mk lr.1),
            contLoop lines (min (i + 4) lines.length) (i + 1)
              (pyStrip (String.mk lr.2))⟩
    else none)

/-- Embedding of `generate_qa_from_text_by_lines(text)`: split into lines,
strip each, drop empties, then run the seed/lookahead loop. -/
def generate_qa_from_text_by_lines (text : String) : List QA :=
  qaFromLines (((pySplit text '\n').map pyStrip).filter (fun l => !l.isEmpty))

/-- Modelled from the spec: the lookahead as the claim describes it — it
stops at the first disqualifying line, where a line disqualifies when it is
a new Q/A seed or is 200 characters or longer. -/
def contLoopClaimFuel (lines : List String) : Nat → Nat → String → String
  | 0, _, answer => answer
  | fuel + 1, j, answer =>
    if is_qa_seed (lines.getD j "") || decide (200 ≤ (lines.getD j "").length) then
      answer
    else contLoopClaimFuel lines fuel (j + 1) (answer ++ " " ++ lines.getD j "")

/-- Modelled from the spec: the claim's lookahead over the window
`j, …, stop - 1`. -/
def contLoopClaim (lines : List String) (stop : Nat) (j : Nat) (answer : String) :
    String :=
  contLoopClaimFuel lines (stop - j) j answer

/-- Modelled from the spec: line-based generation with the claim's
stop-at-first-disqualifying-line lookahead. -/
def qaFromLinesClaim (lines : List String) : List QA :=
  (List.range lines.length).filterMap (fun i =>
    let line := lines.getD i ""
    if is_qa_seed line then
      let lr := splitFirst ':' line.data
      some ⟨pyStrip (String.mk lr.1),
            contLoopClaim lines (min (i + 4) lines.length) (i + 1)
              (pyStrip (String.mk lr.2))⟩
    else none)

/-- Declarative description of the code's lookahead on the 3-line window:
take at most 3 following lines, cut at the first new Q/A seed, drop the
lines of 200 characters or more, and append the rest space-joined. -/
def contWindow (window : List String) (answer : String) : String :=
  ((window.takeWhile (fun l => !is_qa_seed l)).filter
    (fun l => decide (l.length < 200))).foldl (fun a l => a ++ " " ++ l) answer

/-- Declarative form of `qaFromLines` built on `contWindow`. -/
def qaFromLinesWindow (lines : List String) : List QA :=
  (List.range lines.length).filterMap (fun i =>
    let line := lines.getD i ""
    if is_qa_seed line then
      let lr := splitFirst ':' line.data
      some ⟨pyStrip (String.mk lr.1),
            contWindow ((lines.drop (i + 1)).take 3) (pyStrip (String.mk lr.2))⟩
    else none)

/-! ### Cloze generation (`generate_cloze_from_sentence`) -/

/-- Python `\w` on the ASCII plane: letters, digits and underscore. -/
def isWordChar (c : Char) : Bool :=
  c.isAlphanum || c = '_'

/-- Helper of `wordsOf`: scan the characters, accumulating the current word
in reverse. -/
def wordsAux : List Char → List Char → List String
  | [], acc => if acc.isEmpty then [] else [String.mk acc.reverse]
  | c :: cs, acc =>
    if isWordChar c then wordsAux cs (c :: acc)
    else if acc.isEmpty then wordsAux cs []
    else String.mk acc.reverse :: wordsAux cs []

/-- The word list `re.findall` extracts with the word-run pattern: the
maximal runs of word characters of the sentence. -/
def wordsOf (sentence : String) : List String :=
  wordsAux sentence.data []

/-- The candidate blank words of a sentence: words longer than 6 characters,
falling back to words longer than 4 characters when there are none. -/
def clozeCandidates (sentence : String) : List String :=
  let words := wordsOf sentence
  let c1 := words.filter (fun w => decide (6 < w.length))
  if c1.isEmpty then words.filter (fun w => decide (4 < w.length)) else c1

/-- Python `max(iterable, key=len)`: the first element of maximal length in
iteration order (a later element replaces the current best only when
strictly longer). -/
def maxByLen : List String → Option String
  | [] => none
  | w :: ws =>
    some (ws.foldl (fun best x => if best.length < x.length then x else best) w)

/-- Whether `enum` is a possible iteration order of `set(cands)`: no duplicates, and
exactly the elements of `cands`. Python does not fix which order a run
observes. -/
def validSetEnum (enum cands : List String) : Prop :=
  enum.Nodup ∧ (∀ w ∈ enum, w ∈ cands) ∧ (∀ w ∈ cands, w ∈ enum)

instance (enum cands : List String) : Decidable (validSetEnum enum cands) := by
  unfold validSetEnum; infer_instance

/-- The blank-selection part of `generate_cloze_from_sentence`: `None` when
the sentence has no words or no candidates, otherwise
`max(set(candidates), key=len)`, where `enum` is the iteration order the run
observes for `set(candidates)`. (The subsequent question construction by
regex substitution is not needed by any claim.) -/
def generate_cloze_blank (sentence : String) (enum : List String) :
    Option String :=
  let words := wordsOf sentence
  if words.isEmpty then none
  else if (clozeCandidates sentence).isEmpty then none
  else maxByLen enum

/-! ### Helper lemmas about the scheduler -/

theorem applyGrades_nil (c : Card) : applyGrades c [] = c := rfl

theorem applyGrades_cons (c : Card) (ev : Int × Int) (evs : List (Int × Int)) :
    applyGrades c (ev :: evs) = applyGrades (sm2_update c ev.1 ev.2) evs := rfl

theorem clamp_eq_max (x y : Rat) : (if x < y then y else x) = max y x := by
  split
  · exact (max_eq_left (le_of_lt (by assumption))).symm
  · exact (max_eq_right (le_of_not_lt (by assumption))).symm

theorem sm2_update_repetitions (c : Card) (g d : Int) :
    (sm2_update c g d).repetitions =
      if q_map g < 3 then 0 else c.repetitions + 1 := by
  simp [sm2_update]

theorem sm2_update_interval (c : Card) (g d : Int) :
    (sm2_update c g d).interval =
      if q_map g < 3 then 1
      else if c.repetitions + 1 = 1 then 1
      else if c.repetitions + 1 = 2 then 6
      else Int.ceil ((c.interval : Rat) * c.ease_factor) := by
  simp [sm2_update]

theorem sm2_update_ease_factor (c : Card) (g d : Int) :
    (sm2_update c g d).ease_factor =
      max (13/10) (c.ease_factor + (1/10 - ((5 - q_map g : Int) : Rat) *
        (8/100 + ((5 - q_map g : Int) : Rat) * (2/100)))) := by
  rw [sm2_update.eq_def]
  simp only
  rw [clamp_eq_max]

theorem sm2_update_history (c : Card) (g d : Int) :
    (sm2_update c g d).history = c.history ++ [⟨d, q_map g, g⟩] := by
  simp [sm2_update]

theorem applyGrades_history_length (c : Card) (evs : List (Int × Int)) :
    (applyGrades c evs).history.length = c.history.length + evs.length := by
  induction evs generalizing c with
  | nil => simp [applyGrades]
  | cons ev rest ih =>
      rw [applyGrades_cons, ih, sm2_update_history]
      simp
      omega

/-! ### Claim theorems: scheduler -/

/-- C1: for a fresh card (`ease_factor=2.5`, `interval=0`, `repetitions=0`),
grading 3 three times in succession yields interval 1 and repetitions 1, then
interval 6 and repetitions 2, then interval `ceil(6 * ef_after_2nd)` and
repetitions 3. -/
theorem fresh_card_three_grade3 (c : Card) (d1 d2 d3 : Int)
    (h1 : c.interval = 0) (h2 : c.repetitions = 0) (h3 : c.ease_factor = 5/2) :
    ((sm2_update c 3 d1).interval = 1 ∧ (sm2_update c 3 d1).repetitions = 1) ∧
    ((sm2_update (sm2_update c 3 d1) 3 d2).interval = 6 ∧
      (sm2_update (sm2_update c 3 d1) 3 d2).repetitions = 2) ∧
    ((sm2_update (sm2_update (sm2_update c 3 d1) 3 d2) 3 d3).interval =
        Int.ceil ((6 : Rat) * (sm2_update (sm2_update c 3 d1) 3 d2).ease_factor) ∧
      (sm2_update (sm2_update (sm2_update c 3 d1) 3 d2) 3 d3).repetitions = 3) := by
  have hq : q_map 3 = 5 := rfl
  have r1 : (sm2_update c 3 d1).repetitions = 1 := by
    rw [sm2_update_repetitions, hq, h2]; norm_num
  have i1 : (sm2_update c 3 d1).interval = 1 := by
    rw [sm2_update_interval, hq, h2]; norm_num
  have r2 : (sm2_update (sm2_update c 3 d1) 3 d2).repetitions = 2 := by
    rw [sm2_update_repetitions, hq, r1]; norm_num
  have i2 : (sm2_update (sm2_update c 3 d1) 3 d2).interval = 6 := by
    rw [sm2_update_interval, hq, r1]; norm_num
  have r3 : (sm2_update (sm2_update (sm2_update c 3 d1) 3 d2) 3 d3).repetitions = 3 := by
    rw [sm2_update_repetitions, hq, r2]; norm_num
  have i3 : (sm2_update (sm2_update (sm2_update c 3 d1) 3 d2) 3 d3).interval =
      Int.ceil ((6 : Rat) * (sm2_update (sm2_update c 3 d1) 3 d2).ease_factor) := by
    rw [sm2_update_interval, hq, r2, i2]; norm_num
  exact ⟨⟨i1, r1⟩, ⟨i2, r2⟩, i3, r3⟩

/-- Witness for C1: the fresh card itself, graded 3 on days 0, 1, 2. -/
theorem fresh_card_three_grade3_witness :
    ((sm2_update (freshCard "i" "q" "a" 0) 3 0).interval = 1 ∧
      (sm2_update (freshCard "i" "q" "a" 0) 3 0).repetitions = 1) ∧
    ((sm2_update (sm2_update (freshCard "i" "q" "a" 0) 3 0) 3 1).interval = 6 ∧
      (sm2_update (sm2_update (freshCard "i" "q" "a" 0) 3 0) 3 1).repetitions = 2) ∧
    ((sm2_update (sm2_update (sm2_update (freshCard "i" "q" "a" 0) 3 0) 3 1) 3 2).interval =
        Int.ceil ((6 : Rat) *
          (sm2_update (sm2_update (freshCard "i" "q" "a" 0) 3 0) 3 1).ease_factor) ∧
      (sm2_update (sm2_update (sm2_update (freshCard "i" "q" "a" 0) 3 0) 3 1) 3 2).repetitions
        = 3) :=
  fresh_card_three_grade3 (freshCard "i" "q" "a" 0) 0 1 2 rfl rfl rfl

/-- C2: the ease factor never drops below 1.3: from any card whose ease
factor is at least 1.3, any sequence of grading events (in particular any
run of consecutive grade-1 events) keeps it at least 1.3. -/
theorem ease_factor_floor_invariant (c : Card) (evs : List (Int × Int))
    (h : 13/10 ≤ c.ease_factor) :
    13/10 ≤ (applyGrades c evs).ease_factor := by
  induction evs generalizing c with
  | nil => rw [applyGrades_nil]; exact h
  | cons ev rest ih =>
      rw [applyGrades_cons]
      exact ih _ (by rw [sm2_update_ease_factor]; exact le_max_left _ _)

/-- Witness for C2: the fresh card, failed (grade 1) three days in a row. -/
theorem ease_factor_floor_invariant_witness :
    13/10 ≤ (freshCard "i" "q" "a" 0).ease_factor ∧
    13/10 ≤ (applyGrades (freshCard "i" "q" "a" 0) [(1, 0), (1, 1), (1, 2)]).ease_factor :=
  ⟨by norm_num [freshCard],
   ease_factor_floor_invariant (freshCard "i" "q" "a" 0) [(1, 0), (1, 1), (1, 2)]
     (by norm_num [freshCard])⟩

/-- C3: a grade-1 event always resets `repetitions` to 0 and `interval` to 1,
whatever the card's prior state. -/
theorem grade1_resets (c : Card) (d : Int) :
    (sm2_update c 1 d).repetitions = 0 ∧ (sm2_update c 1 d).interval = 1 := by
  refine ⟨?_, ?_⟩
  · rw [sm2_update_repetitions]; norm_num [q_map]
  · rw [sm2_update_interval]; norm_num [q_map]

/-- A card state allowed by claim C4 (`interval ≥ 0`, `repetitions ≥ 0`,
`ease_factor ≥ 1.3`) on which grading yields interval 0. -/
def c4bad : Card :=
  { id := "x", question := "q", answer := "a", created_at := 0, interval := 0,
    repetitions := 2, ease_factor := 5/2, due_date := 0, history := [] }

/-- Counterexample to C4 as stated: `c4bad` has non-negative interval and
repetitions and ease factor 2.5 ≥ 1.3, grade 3 is in {1,2,3}, yet the update
computes `ceil(0 * 2.5) = 0`, so the post-grade interval is 0, not ≥ 1. -/
theorem interval_ge_one_counterexample :
    0 ≤ c4bad.interval ∧ 0 ≤ c4bad.repetitions ∧ 13/10 ≤ c4bad.ease_factor ∧
    (sm2_update c4bad 3 0).interval = 0 := by
  refine ⟨by norm_num [c4bad], by norm_num [c4bad], by norm_num [c4bad], ?_⟩
  rw [sm2_update_interval]
  norm_num [c4bad, q_map]

/-- C4 amended: after a grading event the interval is at least 1, provided
additionally that the card's prior state has `interval ≥ 1` or
`repetitions ≤ 1` (as every state the scheduler itself produces does; the
unreachable state `interval = 0` with `repetitions ≥ 2` is excluded). -/
theorem interval_ge_one (c : Card) (g d : Int)
    (hreps : 0 ≤ c.repetitions) (hef : 13/10 ≤ c.ease_factor)
    (hok : 1 ≤ c.interval ∨ c.repetitions ≤ 1)
    (hg : g = 1 ∨ g = 2 ∨ g = 3) :
    1 ≤ (sm2_update c g d).interval := by
  rw [sm2_update_interval]
  by_cases hq : q_map g < 3
  · rw [if_pos hq]
  · rw [if_neg hq]
    by_cases h1 : c.repetitions + 1 = 1
    · rw [if_pos h1]
    · rw [if_neg h1]
      by_cases h2 : c.repetitions + 1 = 2
      · rw [if_pos h2]; norm_num
      · rw [if_neg h2]
        have hi : 1 ≤ c.interval := by
          rcases hok with h | h
          · exact h
          · omega
        have hpos : (0 : Rat) < (c.interval : Rat) * c.ease_factor := by
          have hi' : (1 : Rat) ≤ (c.interval : Rat) := by exact_mod_cast hi
          nlinarith
        have := Int.ceil_pos.mpr hpos
        omega

/-- Witness for C4 amended: a card after one successful review. -/
theorem interval_ge_one_witness :
    (0 ≤ (sm2_update (freshCard "i" "q" "a" 0) 3 0).repetitions ∧
      13/10 ≤ (sm2_update (freshCard "i" "q" "a" 0) 3 0).ease_factor ∧
      (1 ≤ (sm2_update (freshCard "i" "q" "a" 0) 3 0).interval ∨
        (sm2_update (freshCard "i" "q" "a" 0) 3 0).repetitions ≤ 1)) ∧
    1 ≤ (sm2_update (sm2_update (freshCard "i" "q" "a" 0) 3 0) 3 1).interval := by
  have hreps : (sm2_update (freshCard "i" "q" "a" 0) 3 0).repetitions = 1 := by
    rw [sm2_update_repetitions]; norm_num [freshCard, q_map]
  have hef : 13/10 ≤ (sm2_update (freshCard "i" "q" "a" 0) 3 0).ease_factor := by
    rw [sm2_update_ease_factor]; exact le_max_left _ _
  refine ⟨⟨by omega, hef, Or.inr (by omega)⟩, ?_⟩
  exact interval_ge_one _ 3 1 (by omega) hef (Or.inr (by omega))
    (Or.inr (Or.inr rfl))

/-- C5: each update appends exactly one record to the history, leaving the
earlier records untouched, and after `N` grading events on a card whose
history started empty the history has length exactly `N`. -/
theorem history_one_record_per_event (c : Card) (g d : Int)
    (evs : List (Int × Int)) :
    (sm2_update c g d).history = c.history ++ [⟨d, q_map g, g⟩] ∧
    (c.history = [] → (applyGrades c evs).history.length = evs.length) := by
  refine ⟨sm2_update_history c g d, fun h0 => ?_⟩
  rw [applyGrades_history_length, h0]
  simp

/-- Witness for C5: the fresh card, graded twice. -/
theorem history_one_record_per_event_witness :
    (sm2_update (freshCard "i" "q" "a" 0) 3 5).history =
      (freshCard "i" "q" "a" 0).history ++ [⟨5, 5, 3⟩] ∧
    (applyGrades (freshCard "i" "q" "a" 0) [(3, 0), (1, 1)]).history.length = 2 :=
  ⟨(history_one_record_per_event (freshCard "i" "q" "a" 0) 3 5 []).1,
   (history_one_record_per_event (freshCard "i" "q" "a" 0) 3 5 [(3, 0), (1, 1)]).2 rfl⟩

/-- C10: over exact rational arithmetic, a grade-2 update leaves the ease
factor exactly unchanged (the quality-4 adjustment is exactly 0) and a
grade-3 update adds exactly 0.1, the 1.3 floor never engaging when the ease
factor was at least 1.3. -/
theorem ease_factor_grade2_grade3_exact (c : Card) (d : Int)
    (h : 13/10 ≤ c.ease_factor) :
    (sm2_update c 2 d).ease_factor = c.ease_factor ∧
    (sm2_update c 3 d).ease_factor = c.ease_factor + 1/10 := by
  constructor
  · rw [sm2_update_ease_factor]
    have : ((5 - q_map 2 : Int) : Rat) = 1 := by norm_num [q_map]
    rw [this]
    rw [max_eq_right (by linarith)]
    ring
  · rw [sm2_update_ease_factor]
    have : ((5 - q_map 3 : Int) : Rat) = 0 := by norm_num [q_map]
    rw [this]
    rw [max_eq_right (by linarith)]
    ring

/-- Witness for C10: the fresh card (ease factor 2.5). -/
theorem ease_factor_grade2_grade3_exact_witness :
    (sm2_update (freshCard "i" "q" "a" 0) 2 0).ease_factor =
      (freshCard "i" "q" "a" 0).ease_factor ∧
    (sm2_update (freshCard "i" "q" "a" 0) 3 0).ease_factor =
      (freshCard "i" "q" "a" 0).ease_factor + 1/10 :=
  ease_factor_grade2_grade3_exact (freshCard "i" "q" "a" 0) 0 (by norm_num [freshCard])

/-! ### Claim theorems: store -/

theorem parseAll_length (uuid : Nat → String) (today : Int) (i : Nat)
    (ds : List RawCard) :
    (parseAll uuid today i ds).length = ds.length := by
  induction ds generalizing i with
  | nil => rfl
  | cons r rs ih => simp [parseAll, ih]

theorem parseCard_to_dict (freshId : String) (today : Int) (c : Card) :
    parseCard freshId today (Card.to_dict c) = c := rfl

/-- C6: saving a list of cards and loading it back yields a field-for-field
equal list, whatever fresh-id supply and current date the load uses. -/
theorem save_load_roundtrip (cards : List Card) (uuid : Nat → String)
    (today : Int) :
    (load_cards (FileState.good (save_cards cards)) uuid today).1 = cards := by
  have key : ∀ (i : Nat) (cs : List Card),
      parseAll uuid today i (cs.map Card.to_dict) = cs := by
    intro i cs
    induction cs generalizing i with
    | nil => rfl
    | cons c rest ih => simp [parseAll, parseCard_to_dict, ih]
  simpa [load_cards, save_cards] using key 0 cards

/-- C7: loading never fails: a missing file yields the empty list with no
error reported, a malformed or unreadable file reports an error and yields
the empty list, no record is ever dropped, and a record with every field
missing is defaulted (fresh id, empty question and answer, the current date
for both dates, interval 0, repetitions 0, ease factor 2.5, empty history)
instead of failing the load. -/
theorem load_never_fails (uuid : Nat → String) (today : Int)
    (data : List RawCard) :
    load_cards FileState.missing uuid today = ([], false) ∧
    load_cards FileState.corrupt uuid today = ([], true) ∧
    (load_cards (FileState.good data) uuid today).1.length = data.length ∧
    (load_cards (FileState.good [RawCard.empty]) uuid today).1 =
      [{ id := uuid 0, question := "", answer := "", created_at := today,
         interval := 0, repetitions := 0, ease_factor := 5/2,
         due_date := today, history := [] }] := by
  refine ⟨rfl, rfl, ?_, ?_⟩
  · exact parseAll_length uuid today 0 data
  · rfl

/-! ### Claim theorems: line-based Q/A generation -/

theorem contWindow_nil (ans : String) : contWindow [] ans = ans := rfl

theorem contWindow_cons_seed (l : String) (w : List String) (ans : String)
    (h : is_qa_seed l) : contWindow (l :: w) ans = ans := by
  simp [contWindow, List.takeWhile_cons, h]

theorem contWindow_cons_not_seed (l : String) (w : List String) (ans : String)
    (h : ¬ is_qa_seed l) :
    contWindow (l :: w) ans =
      contWindow w (if l.length < 200 then ans ++ " " ++ l else ans) := by
  by_cases hlen : l.length < 200
  · simp [contWindow, List.takeWhile_cons, List.filter_cons, h, hlen]
  · simp [contWindow, List.takeWhile_cons, List.filter_cons, h, hlen]

theorem contLoopFuel_eq_contWindow (lines : List String) :
    ∀ (fuel j : Nat) (ans : String), j + fuel ≤ lines.length →
      contLoopFuel lines fuel j ans = contWindow ((lines.drop j).take fuel) ans := by
  intro fuel
  induction fuel with
  | zero =>
      intro j ans _
      rw [contLoopFuel]
      simp [contWindow_nil]
  | succ n ih =>
      intro j ans hlen
      have hjlen : j < lines.length := by omega
      rw [contLoopFuel]
      have hdrop : lines.drop j = lines.getD j "" :: lines.drop (j + 1) := by
        rw [List.getD_eq_getElem _ _ hjlen]
        exact List.drop_eq_getElem_cons hjlen
      rw [hdrop, List.take_succ_cons]
      by_cases hseed : is_qa_seed (lines.getD j "")
      · rw [if_pos hseed, contWindow_cons_seed _ _ _ hseed]
      · rw [if_neg hseed, contWindow_cons_not_seed _ _ _ hseed,
          ih (j + 1) _ (by omega)]

/-- C8 amended: the lookahead consumes at most the 3 lines following the
seed, stops at the first line that is itself a new Q/A seed, and appends the
remaining lines of the window that are shorter than 200 characters,
space-joined, in order; a line of 200 characters or more is skipped but does
not stop the lookahead. -/
theorem qa_lookahead_window (lines : List String) :
    qaFromLines lines = qaFromLinesWindow lines := by
  unfold qaFromLines qaFromLinesWindow
  apply List.filterMap_congr
  intro i hi
  rw [List.mem_range] at hi
  by_cases hseed : is_qa_seed (lines.getD i "")
  · simp only [hseed, if_true]
    unfold contLoop
    rw [contLoopFuel_eq_contWindow lines _ (i + 1) _ (by omega)]
    have hm : min (i + 4) lines.length - (i + 1) =
        min 3 ((lines.drop (i + 1)).length) := by
      rw [List.length_drop]; omega
    rw [hm, ← List.take_take, List.take_length]
  · simp only [hseed, Bool.false_eq_true, if_false]

def longLine : String := String.mk (List.replicate 200 'x')

set_option maxRecDepth 40000 in
/-- Counterexample to C8 as stated: in the text `"a:b\n" ++ longLine ++ "\nc"`
the middle line is disqualifying (not a seed, 200 characters long), yet the
generator still appends the later line `"c"` to the answer: the lookahead
only stops at a new Q/A seed, a long line is merely skipped. A generator
that stopped at the first disqualifying line (`qaFromLinesClaim`, modelled
from the claim) would answer `"b"` instead of `"b c"`. -/
theorem qa_lookahead_counterexample :
    is_qa_seed longLine = false ∧ 200 ≤ longLine.length ∧
    generate_qa_from_text_by_lines ("a:b\n" ++ longLine ++ "\nc") =
      [⟨"a", "b c"⟩] ∧
    qaFromLinesClaim ["a:b", longLine, "c"] = [⟨"a", "b"⟩] := by
  decide

/-! ### Claim theorems: cloze generation -/

theorem foldl_maxByLen (w : String) (ws : List String) :
    (ws.foldl (fun best x => if best.length < x.length then x else best) w) ∈ w :: ws ∧
    ∀ x ∈ w :: ws,
      x.length ≤
        (ws.foldl (fun best x => if best.length < x.length then x else best) w).length := by
  induction ws generalizing w with
  | nil => simp
  | cons a as ih =>
      rw [List.foldl_cons]
      obtain ⟨hmem, hbound⟩ := ih (if w.length < a.length then a else w)
      have hw2 : (if w.length < a.length then a else w) = a ∨
          (if w.length < a.length then a else w) = w := by
        split
        · exact Or.inl rfl
        · exact Or.inr rfl
      have hwle : w.length ≤ (if w.length < a.length then a else w).length := by
        split
        · omega
        · exact le_refl _
      have hale : a.length ≤ (if w.length < a.length then a else w).length := by
        split
        · exact le_refl _
        · omega
      constructor
      · rcases List.mem_cons.mp hmem with h | h
        · rcases hw2 with h2 | h2 <;> rw [h, h2] <;> simp
        · exact List.mem_cons_of_mem _ (List.mem_cons_of_mem _ h)
      · intro x hx
        rcases List.mem_cons.mp hx with h | h
        · subst h
          exact le_trans hwle (hbound _ (List.mem_cons_self _ _))
        · rcases List.mem_cons.mp h with h | h
          · subst h
            exact le_trans hale (hbound _ (List.mem_cons_self _ _))
          · exact hbound _ (List.mem_cons_of_mem _ h)

/-- C9 amended: for every iteration order of the candidate set, the chosen
blank is a candidate of maximal length among the candidates; the choice
depends on the set-iteration order the run observes, so when several
candidates share the maximal length it is not guaranteed to be the same
across two runs (the counterexample), though the blank's maximal length is. -/
theorem cloze_blank_maximal (s : String) (enum : List String) (b : String)
    (henum : validSetEnum enum (clozeCandidates s))
    (hb : generate_cloze_blank s enum = some b) :
    b ∈ clozeCandidates s ∧ ∀ w ∈ clozeCandidates s, w.length ≤ b.length := by
  obtain ⟨-, h1, h2⟩ := henum
  unfold generate_cloze_blank at hb
  by_cases hw : (wordsOf s).isEmpty
  · rw [if_pos hw] at hb; exact absurd hb (by simp)
  · rw [if_neg hw] at hb
    by_cases hc : (clozeCandidates s).isEmpty
    · rw [if_pos hc] at hb; exact absurd hb (by simp)
    · rw [if_neg hc] at hb
      cases enum with
      | nil => exact absurd hb (by simp [maxByLen])
      | cons w ws =>
          rw [maxByLen] at hb
          obtain ⟨hmem, hbound⟩ := foldl_maxByLen w ws
          have hbv : ws.foldl (fun best x => if best.length < x.length then x else best) w
              = b := by exact Option.some.inj hb
          constructor
          · exact h1 b (hbv ▸ hmem)
          · intro x hx
            rw [← hbv]
            exact hbound x (h2 x hx)

/-- Witness for C9 amended: the sentence has candidates `mitochondria` and
`powerhouse`; for the iteration order listing them in that order, the chosen
blank `mitochondria` is of maximal length. -/
theorem cloze_blank_maximal_witness :
    validSetEnum ["mitochondria", "powerhouse"]
      (clozeCandidates "The mitochondria is the powerhouse") ∧
    generate_cloze_blank "The mitochondria is the powerhouse"
      ["mitochondria", "powerhouse"] = some "mitochondria" ∧
    ("mitochondria" ∈ clozeCandidates "The mitochondria is the powerhouse" ∧
      ∀ w ∈ clozeCandidates "The mitochondria is the powerhouse",
        w.length ≤ "mitochondria".length) :=
  ⟨by decide, by decide,
   cloze_blank_maximal "The mitochondria is the powerhouse"
     ["mitochondria", "powerhouse"] "mitochondria" (by decide) (by decide)⟩

/-- Counterexample to C9 as stated: on a sentence whose two candidates both
have length 8, both orders are valid iteration orders of the candidate set
(Python fixes neither), and the generator chooses a different blank under
each, so two runs of the generator on the same sentence need not choose the
same blank word when several candidates share the maximal length. -/
theorem cloze_determinism_counterexample :
    validSetEnum ["abcdefgh", "stuvwxyz"] (clozeCandidates "abcdefgh stuvwxyz") ∧
    validSetEnum ["stuvwxyz", "abcdefgh"] (clozeCandidates "abcdefgh stuvwxyz") ∧
    generate_cloze_blank "abcdefgh stuvwxyz" ["abcdefgh", "stuvwxyz"] ≠
      generate_cloze_blank "abcdefgh stuvwxyz" ["stuvwxyz", "abcdefgh"] := by
  decide

end Flashcards
